import Mathlib

/-!
Verification of the `ag` command-line assistant (Python sources under
`src/`).  The development shallowly embeds the stream aggregator
(`AIClient.process_stream`), the client configuration resolution
(`AIClient.__init__`), the image request builder
(`AIClient.image_text_completion`), the interactive CLI loop and the CLI
error boundary (`cli` in `src/cli/commands.py`) as executable Lean
functions, and proves the specified properties about them.
-/

namespace Ag

/-- Usage-accounting payload carried by a streamed chunk
(`CompletionUsage`: prompt/completion/total token counts). -/
structure Usage where
  prompt_tokens : Nat
  completion_tokens : Nat
  total_tokens : Nat
deriving DecidableEq, Repr

/-- The `delta` object of a streamed choice.  `content` models the Python
attribute: `none` means the attribute is absent (`hasattr` is false),
`some none` means the attribute holds `None`, and `some (some s)` means it
holds the string `s`. -/
structure Delta where
  content : Option (Option String)
deriving DecidableEq, Repr

/-- One element of `chunk.choices`.  `delta = none` models a choice object
without a `delta` attribute. -/
structure Choice where
  delta : Option Delta
deriving DecidableEq, Repr

/-- A streamed response fragment (`ChatCompletionChunk`).  Each field is
doubly optional in the same way as `Delta.content`: the outer `Option`
models attribute absence, the inner value models the Python value
(`chunk.choices` is a possibly empty list; `chunk.usage` is `None` or a
usage object). -/
structure Chunk where
  choices : Option (List Choice)
  usage : Option (Option Usage)
deriving DecidableEq, Repr

/-- The guarded attribute walk of `process_stream`
(client.py lines 108-114):
`hasattr(chunk, "choices") and chunk.choices and
 hasattr(chunk.choices[0], "delta") and
 hasattr(chunk.choices[0].delta, "content")`, then reading
`chunk.choices[0].delta.content`.  Returns `none` when any guard fails,
and otherwise the content value (which may itself be Python `None`). -/
def chunkContent (chunk : Chunk) : Option (Option String) :=
  match chunk.choices with
  | none => none
  | some [] => none
  | some (c0 :: _) =>
    match c0.delta with
    | none => none
    | some d => d.content

/-- Mutable state of the `process_stream` loop: the running concatenation
`full_response`, the last-seen usage payload `usage_info`, and the ordered
list of values passed to the output sink (`print(content, ...)` when
`print_output` is true) — the emit side-channel. -/
structure StreamState where
  full_response : String
  usage_info : Option Usage
  emitted : List String
deriving DecidableEq, Repr

/-- One iteration of the `for chunk in completion` loop of
`process_stream` (client.py lines 107-122): append a present, truthy
content to `full_response` (emitting it when `print_output` is set), then
record a present, truthy usage payload into `usage_info`
(last-write-wins). -/
def processChunk (print_output : Bool) (st : StreamState) (chunk : Chunk) :
    StreamState :=
  let st1 :=
    match chunkContent chunk with
    | some (some content) =>
      if content = "" then st
      else
        { st with
          full_response := st.full_response ++ content
          emitted :=
            if print_output then st.emitted ++ [content] else st.emitted }
    | _ => st
  match chunk.usage with
  | some (some u) => { st1 with usage_info := some u }
  | _ => st1

/-- `AIClient.process_stream` on a fragment sequence whose iteration
completes normally: fold the loop body over the chunks from the initial
state (`full_response = ""`, `usage_info = None`, nothing emitted).  The
Python function returns `full_response`; the whole final state is kept
here so that the usage payload and the emit side-channel can be
inspected. -/
def process_stream (print_output : Bool) (completion : List Chunk) :
    StreamState :=
  completion.foldl (processChunk print_output) ⟨"", none, []⟩

/-- Outcome of running `process_stream` on a possibly failing iterator:
either the loop consumed the whole sequence and the function returns
(`ok`), or iteration raised and the exception is re-raised (`raised`);
in both cases the emit side effects already performed are recorded. -/
inductive StreamOutcome (ε : Type) : Type
  | ok (full_response : String) (usage_info : Option Usage)
      (emitted : List String)
  | raised (e : ε) (emitted : List String)

/-- The emit calls performed by a run, whether or not it raised. -/
def StreamOutcome.emittedCalls {ε : Type} : StreamOutcome ε → List String
  | .ok _ _ em => em
  | .raised _ em => em

/-- `AIClient.process_stream` on an iterator that yields `chunks` and then
either stops (`err = none`) or raises a transport failure `e`
(`err = some e`).  The `try`/`except` of client.py lines 106-136 catches
the failure, optionally prints a diagnostic line, and re-raises the same
exception; the side effects already performed for the consumed prefix are
kept. -/
def process_stream_run (ε : Type) (print_output : Bool)
    (chunks : List Chunk) (err : Option ε) : StreamOutcome ε :=
  let st := process_stream print_output chunks
  match err with
  | none => .ok st.full_response st.usage_info st.emitted
  | some e => .raised e st.emitted

/-- The text delta carried by a fragment: the content value when the
attribute walk succeeds and the value is a string (possibly empty). -/
def textDelta (c : Chunk) : Option String :=
  match chunkContent c with
  | some (some s) => some s
  | _ => none

/-- The text deltas of a fragment sequence, in arrival order. -/
def textDeltas (chunks : List Chunk) : List String :=
  chunks.filterMap textDelta

/-- The content a fragment actually contributes to the aggregation: its
text delta when present and non-empty (Python string truthiness), `none`
otherwise. -/
def effectiveContent (c : Chunk) : Option String :=
  match chunkContent c with
  | some (some s) => if s = "" then none else some s
  | _ => none

/-- The usage payload a fragment actually contributes: the value of
`chunk.usage` when the attribute is present and truthy. -/
def usagePayload (c : Chunk) : Option Usage :=
  match c.usage with
  | some (some u) => some u
  | _ => none

/-- Concatenation of a list of strings in order. -/
def concatAll : List String → String
  | [] => ""
  | s :: rest => s ++ concatAll rest

/-! ### Client construction (`AIClient.__init__`, client.py lines 18-52) -/

/-- The environment variables read by `AIClient.__init__` through
`os.getenv` after `load_dotenv()`: `none` models an unset variable. -/
structure Env where
  API_KEY : Option String
  BASE_URL : Option String
  MODEL : Option String
deriving DecidableEq, Repr

/-- Python `v or fallback` on an optional string `v`: keeps `v` when it is
truthy (a non-empty string), otherwise evaluates to the fallback. -/
def pyOrStr (v : Option String) (fb : Option String) : Option String :=
  match v with
  | some s => if s = "" then fb else some s
  | none => fb

/-- Python truthiness of an optional string: `not v` is true exactly when
`v` is `None` or the empty string. -/
def pyTruthy : Option String → Bool
  | some s => if s = "" then false else true
  | none => false

/-- The three configuration fields, in the order `__init__` checks them. -/
inductive ConfigField : Type
  | api_key
  | base_url
  | model
deriving DecidableEq, Repr

/-- The validated client configuration stored on a constructed client. -/
structure Config where
  api_key : String
  base_url : String
  model : String
deriving DecidableEq, Repr

/-- Parameter resolution of `__init__` (client.py lines 33-37): when at
least one of the three arguments is `None`, `load_dotenv()` runs and each
falsy argument falls back to its environment variable; otherwise the
arguments are kept as passed. -/
def resolveParams (api_key base_url model : Option String) (env : Env) :
    Option String × Option String × Option String :=
  if api_key.isNone || base_url.isNone || model.isNone then
    (pyOrStr api_key env.API_KEY, pyOrStr base_url env.BASE_URL,
      pyOrStr model env.MODEL)
  else
    (api_key, base_url, model)

/-- `AIClient.__init__` (client.py lines 18-52): resolve the parameters,
then validate them in the order api_key, base_url, model, raising a
`ValueError` naming the first falsy field, and otherwise storing the
resolved configuration.  `create_client` wraps this construction and
re-raises the same error, so it realises the same function. -/
def clientInit (api_key base_url model : Option String) (env : Env) :
    Except ConfigField Config :=
  let r := resolveParams api_key base_url model env
  if pyTruthy r.1 then
    if pyTruthy r.2.1 then
      if pyTruthy r.2.2 then
        .ok ⟨r.1.getD "", r.2.1.getD "", r.2.2.getD ""⟩
      else .error .model
    else .error .base_url
  else .error .api_key

/-- The first of the three resolved fields that is empty (`None` or `""`),
checked in the order api_key, base_url, model; `none` when all three are
non-empty strings.  Written from the specified check order, to be compared
with `clientInit`. -/
def firstMissingField (r : Option String × Option String × Option String) :
    Option ConfigField :=
  if !pyTruthy r.1 then some .api_key
  else if !pyTruthy r.2.1 then some .base_url
  else if !pyTruthy r.2.2 then some .model
  else none

/-! ### Image request building
(`AIClient.image_text_completion`, client.py lines 174-229) -/

/-- Modelled from the spec: Python's `base64.b64encode` (standard library,
not part of this repository) — RFC 4648 base64 over the file's bytes,
each byte a natural number below 256, with `=` padding. -/
def b64Char (n : Nat) : Char :=
  (("ABCDEFGHIJKLMNOPQRSTUVWXYZabcdefghijklmnopqrstuvwxyz" ++
    "0123456789+/").toList).getD n 'A'

/-- Base64-encode a byte list, three bytes to four output characters. -/
def b64encodeChars : List Nat → List Char
  | [] => []
  | [b0] =>
    [b64Char (b0 / 4), b64Char (b0 % 4 * 16), '=', '=']
  | [b0, b1] =>
    [b64Char (b0 / 4), b64Char (b0 % 4 * 16 + b1 / 16),
      b64Char (b1 % 16 * 4), '=']
  | b0 :: b1 :: b2 :: rest =>
    b64Char (b0 / 4) :: b64Char (b0 % 4 * 16 + b1 / 16) ::
      b64Char (b1 % 16 * 4 + b2 / 64) :: b64Char (b2 % 64) ::
        b64encodeChars rest

/-- Base64 encoding of a byte list as a string. -/
def b64encode (bytes : List Nat) : String :=
  String.mk (b64encodeChars bytes)

/-- Failure of the image request builder: the image file does not exist
(Python `open` raising `FileNotFoundError`). -/
inductive ImgError : Type
  | fileNotFound (path : String)
deriving DecidableEq, Repr

/-- One typed content part of a multi-part message. -/
inductive ContentPart : Type
  | text (t : String)
  | image_url (url : String)
deriving DecidableEq, Repr

/-- A chat message whose content is a list of typed parts, as built by
`image_text_completion`. -/
structure PartsMessage where
  role : String
  content : List ContentPart
deriving DecidableEq, Repr

/-- Image reference resolution of `image_text_completion` (client.py lines
197-204): a path starting with `"data:image"` is used verbatim; otherwise
the file is read fully and wrapped as
`"data:image/png;base64," ++ base64 of its bytes`.  The filesystem is a
map from paths to byte lists; a missing path models `open` raising
`FileNotFoundError`. -/
def resolveImageUrl (fs : String → Option (List Nat)) (image_path : String) :
    Except ImgError String :=
  if "data:image".isPrefixOf image_path then .ok image_path
  else
    match fs image_path with
    | none => .error (.fileNotFound image_path)
    | some bytes => .ok ("data:image/png;base64," ++ b64encode bytes)

/-- The message list built by `image_text_completion` (client.py lines
207-222) from the system prompt, the resolved image url and the user
prompt. -/
def imageMessages (system_prompt image_url prompt : String) :
    List PartsMessage :=
  [⟨"system", [.text system_prompt]⟩,
    ⟨"user", [.image_url image_url, .text prompt]⟩]

/-- `AIClient.image_text_completion` up to the network call: resolve the
image reference, then build the request messages.  An error is returned
before any request payload exists, so no network call is attempted in the
failure case. -/
def image_text_completion (fs : String → Option (List Nat))
    (prompt image_path system_prompt : String) :
    Except ImgError (List PartsMessage) :=
  match resolveImageUrl fs image_path with
  | .error e => .error e
  | .ok url => .ok (imageMessages system_prompt url prompt)

/-! ### CLI (`cli` in src/cli/commands.py) -/

/-- Python `str.lower()` on an input line: lower-case each character
(ASCII case mapping, the character-wise semantics of `String.toLower`). -/
def lowerStr (s : String) : String :=
  String.mk (s.data.map Char.toLower)

/-- The exit test of the interactive loop (commands.py line 82):
`user_input.lower() in ["exit", "quit"]`. -/
def isExitInput (s : String) : Bool :=
  lowerStr s = "exit" || lowerStr s = "quit"

/-- The interactive loop (commands.py lines 80-86) on a list of input
lines: returns the prompts dispatched to `text_completion`, in order; the
loop stops at the first exit keyword without dispatching it. -/
def interactiveDispatches : List String → List String
  | [] => []
  | line :: rest =>
    if isExitInput line then [] else line :: interactiveDispatches rest

/-- The exception classes caught by the `try`/`except` of `cli`
(commands.py lines 87-92), each carrying its message text. -/
inductive CliError : Type
  | fileNotFound (msg : String)
  | valueError (msg : String)
  | osError (msg : String)
deriving DecidableEq, Repr

/-- The human-readable line `cli` echoes for a caught error. -/
def cliErrorMessage : CliError → String
  | .fileNotFound m => "文件未找到错误: " ++ m
  | .valueError m => "值错误: " ++ m
  | .osError m => "操作错误: " ++ m

/-- Observable outcome of one `cli` invocation: the error lines echoed at
the boundary and the process exit code. -/
structure CliOutcome where
  errorLines : List String
  exitCode : Nat
deriving DecidableEq, Repr

/-- The `cli` boundary running a streaming interaction: the stream
aggregator consumes `chunks` and then either finishes or re-raises a
transport failure `err`; a raised `CliError` is caught by the
`except` clauses, one message line is echoed, and the command returns
normally (exit code 0, commands.py lines 44-92). -/
def cliRunStream (print_output : Bool) (chunks : List Chunk)
    (err : Option CliError) : CliOutcome :=
  match process_stream_run CliError print_output chunks err with
  | .ok _ _ _ => ⟨[], 0⟩
  | .raised e _ => ⟨[cliErrorMessage e], 0⟩

/-! ### Lemmas about the stream aggregator -/

lemma processChunk_full_response (p : Bool) (st : StreamState) (c : Chunk) :
    (processChunk p st c).full_response =
      st.full_response ++ (effectiveContent c).getD "" := by
  unfold processChunk effectiveContent
  rcases hc : chunkContent c with _ | (_ | s) <;>
    rcases hu : c.usage with _ | (_ | u) <;>
    simp only [] <;>
    first
      | simp
      | (by_cases hs : s = "" <;> simp [hs])

lemma processChunk_emitted (p : Bool) (st : StreamState) (c : Chunk) :
    (processChunk p st c).emitted =
      st.emitted ++ (if p then (effectiveContent c).toList else []) := by
  unfold processChunk effectiveContent
  rcases hc : chunkContent c with _ | (_ | s)
  · rcases hu : c.usage with _ | (_ | u) <;> cases p <;> simp
  · rcases hu : c.usage with _ | (_ | u) <;> cases p <;> simp
  · by_cases hs : s = "" <;>
      rcases hu : c.usage with _ | (_ | u) <;> cases p <;> simp [hs]

lemma processChunk_usage_info (p : Bool) (st : StreamState) (c : Chunk) :
    (processChunk p st c).usage_info =
      match usagePayload c with
      | some u => some u
      | none => st.usage_info := by
  unfold processChunk usagePayload
  rcases hc : chunkContent c with _ | (_ | s) <;>
    rcases hu : c.usage with _ | (_ | u) <;>
    simp only [] <;>
    first
      | simp
      | (by_cases hs : s = "" <;> simp [hs])

lemma foldl_full_response (p : Bool) (chunks : List Chunk)
    (st : StreamState) :
    (chunks.foldl (processChunk p) st).full_response =
      st.full_response ++ concatAll (chunks.filterMap effectiveContent) := by
  induction chunks generalizing st with
  | nil => simp [concatAll]
  | cons c cs ih =>
    simp only [List.foldl_cons, List.filterMap_cons]
    rw [ih, processChunk_full_response]
    cases h : effectiveContent c with
    | none => simp
    | some s => simp [concatAll, String.append_assoc]

lemma foldl_emitted (p : Bool) (chunks : List Chunk) (st : StreamState) :
    (chunks.foldl (processChunk p) st).emitted =
      st.emitted ++
        (if p then chunks.filterMap effectiveContent else []) := by
  induction chunks generalizing st with
  | nil => simp
  | cons c cs ih =>
    simp only [List.foldl_cons, List.filterMap_cons]
    rw [ih, processChunk_emitted]
    cases h : effectiveContent c <;> cases p <;> simp

lemma foldl_usage_info (p : Bool) (chunks : List Chunk) (st : StreamState) :
    (chunks.foldl (processChunk p) st).usage_info =
      match (chunks.filterMap usagePayload).getLast? with
      | some u => some u
      | none => st.usage_info := by
  induction chunks using List.reverseRecOn generalizing st with
  | nil => simp
  | append_singleton cs c ih =>
    rw [List.foldl_append, List.foldl_cons, List.foldl_nil,
      processChunk_usage_info, ih]
    cases h : usagePayload c with
    | some u => simp [List.filterMap_append, h]
    | none =>
      simp only [List.filterMap_append, List.filterMap_cons, h,
        List.filterMap_nil, List.append_nil]

lemma empty_append_str (s : String) : "" ++ s = s := by
  cases s
  rfl

lemma concatAll_effective_eq_deltas (chunks : List Chunk) :
    concatAll (chunks.filterMap effectiveContent) =
      concatAll (textDeltas chunks) := by
  induction chunks with
  | nil => rfl
  | cons c cs ih =>
    simp only [textDeltas, List.filterMap_cons]
    rcases hc : chunkContent c with _ | (_ | s)
    · simpa [effectiveContent, textDelta, hc, textDeltas] using ih
    · simpa [effectiveContent, textDelta, hc, textDeltas] using ih
    · by_cases hs : s = ""
      · simp only [effectiveContent, textDelta, hc, hs, if_pos, concatAll]
        rw [empty_append_str]
        simpa [textDeltas] using ih
      · simp only [effectiveContent, textDelta, hc, if_neg hs, concatAll]
        rw [ih]
        simp [textDeltas]

lemma effective_eq_filter_deltas (chunks : List Chunk) :
    chunks.filterMap effectiveContent =
      (textDeltas chunks).filter (fun s => s != "") := by
  induction chunks with
  | nil => rfl
  | cons c cs ih =>
    simp only [textDeltas, List.filterMap_cons]
    rcases hc : chunkContent c with _ | (_ | s)
    · simpa [effectiveContent, textDelta, hc, textDeltas] using ih
    · simpa [effectiveContent, textDelta, hc, textDeltas] using ih
    · by_cases hs : s = "" <;>
        simp [effectiveContent, textDelta, hc, hs, List.filter_cons,
          textDeltas, ih]

/-- A fragment carrying a plain text delta `s` and no usage payload. -/
def sampleText (s : String) : Chunk :=
  ⟨some [⟨some ⟨some (some s)⟩⟩], none⟩

/-- A malformed fragment: no `choices` attribute and no usage payload. -/
def sampleMalformed : Chunk := ⟨none, none⟩

/-! ### Claim theorems -/

/-- C1: for every finite fragment sequence whose text deltas are
`d1..dn` in arrival order, with usage payloads interspersed arbitrarily,
`process_stream` returns the string `d1 ++ d2 ++ ... ++ dn`. -/
theorem claim_c1_aggregate_concat (print_output : Bool)
    (chunks : List Chunk) :
    (process_stream print_output chunks).full_response =
      concatAll (textDeltas chunks) := by
  unfold process_stream
  rw [foldl_full_response, empty_append_str, concatAll_effective_eq_deltas]

/-- C2: with the emit side-channel enabled (`print_output = true`),
`process_stream` emits exactly once per non-empty text delta, in arrival
order, with exactly that delta's content, and the string it returns is
the concatenation of all emitted values. -/
theorem claim_c2_emit_per_nonempty_delta (chunks : List Chunk) :
    (process_stream true chunks).emitted =
      (textDeltas chunks).filter (fun s => s != "") ∧
    (process_stream true chunks).full_response =
      concatAll ((process_stream true chunks).emitted) := by
  have he : (process_stream true chunks).emitted =
      chunks.filterMap effectiveContent := by
    unfold process_stream
    rw [foldl_emitted]
    simp
  refine ⟨by rw [he, effective_eq_filter_deltas], ?_⟩
  rw [he]
  unfold process_stream
  rw [foldl_full_response, empty_append_str]

/-- C3: the usage field of the aggregation result is the last usage
payload encountered in iteration order when at least one fragment carries
one (last-write-wins, also on non-terminal fragments), and is absent when
no fragment carries one. -/
theorem claim_c3_last_usage_wins (print_output : Bool)
    (chunks : List Chunk) :
    (process_stream print_output chunks).usage_info =
      (chunks.filterMap usagePayload).getLast? := by
  unfold process_stream
  rw [foldl_usage_info]
  cases h : (chunks.filterMap usagePayload).getLast? <;> simp

/-- C4: when iterating the fragment sequence raises a transport-level
failure after a prefix of fragments, `process_stream` re-raises the same
failure, and the emit side effects already performed for the consumed
prefix are exactly those of a complete run over that prefix (no
rollback). -/
theorem claim_c4_reraise_keeps_emits (ε : Type) (e : ε)
    (print_output : Bool) (chunks : List Chunk) :
    process_stream_run ε print_output chunks (some e) =
      .raised e
        ((process_stream_run ε print_output chunks none).emittedCalls) :=
  rfl

/-- C5: a fragment lacking the expected nested shape (no choices, empty
choices, no delta, no content field, or a null/empty content — exactly
the fragments with no effective content) is skipped for text purposes
without raising: the returned string and the emit call sequence equal
those of the sequence with that fragment removed. -/
theorem claim_c5_malformed_skipped (print_output : Bool)
    (pre suf : List Chunk) (c : Chunk) (h : effectiveContent c = none) :
    (process_stream print_output (pre ++ c :: suf)).full_response =
      (process_stream print_output (pre ++ suf)).full_response ∧
    (process_stream print_output (pre ++ c :: suf)).emitted =
      (process_stream print_output (pre ++ suf)).emitted := by
  have key : (pre ++ c :: suf).filterMap effectiveContent =
      (pre ++ suf).filterMap effectiveContent := by
    simp [List.filterMap_append, List.filterMap_cons, h]
  constructor
  · unfold process_stream
    rw [foldl_full_response, foldl_full_response, key]
  · unfold process_stream
    rw [foldl_emitted, foldl_emitted, key]

/-- Witness for C5 at a concrete input: a fragment without a `choices`
attribute, placed between two text fragments, changes neither the
aggregated string nor the emit sequence. -/
theorem claim_c5_witness :
    effectiveContent sampleMalformed = none ∧
    ((process_stream true
        [sampleText "He", sampleMalformed, sampleText "llo"]).full_response =
      (process_stream true
        [sampleText "He", sampleText "llo"]).full_response ∧
    (process_stream true
        [sampleText "He", sampleMalformed, sampleText "llo"]).emitted =
      (process_stream true [sampleText "He", sampleText "llo"]).emitted) :=
  ⟨rfl,
    claim_c5_malformed_skipped true [sampleText "He"] [sampleText "llo"]
      sampleMalformed rfl⟩

/-- C6: client construction succeeds exactly when api_key, base_url and
model each resolve to a non-empty string after environment-variable
fallback, and otherwise fails with a configuration error naming the first
missing field, checked in the order api_key, base_url, model. -/
theorem claim_c6_config_validation
    (api_key base_url model : Option String) (env : Env) :
    clientInit api_key base_url model env =
      match firstMissingField (resolveParams api_key base_url model env)
        with
      | some f => .error f
      | none =>
        .ok ⟨(resolveParams api_key base_url model env).1.getD "",
          (resolveParams api_key base_url model env).2.1.getD "",
          (resolveParams api_key base_url model env).2.2.getD ""⟩ := by
  unfold clientInit firstMissingField
  by_cases h1 : pyTruthy (resolveParams api_key base_url model env).1 <;>
    by_cases h2 :
      pyTruthy (resolveParams api_key base_url model env).2.1 <;>
    by_cases h3 :
      pyTruthy (resolveParams api_key base_url model env).2.2 <;>
    simp [h1, h2, h3]

/-- C7: an image argument that already looks like a data URI (prefix
`"data:image"`) is used verbatim as the image reference; otherwise the
file's bytes are read and the reference is
`"data:image/png;base64,"` followed by their base64 encoding; a
non-existent path yields a not-found error before any request payload is
built (so before any network call). -/
theorem claim_c7_image_reference (fs : String → Option (List Nat))
    (prompt image_path system_prompt : String) :
    image_text_completion fs prompt image_path system_prompt =
      if "data:image".isPrefixOf image_path then
        .ok (imageMessages system_prompt image_path prompt)
      else
        match fs image_path with
        | none => .error (.fileNotFound image_path)
        | some bytes =>
          .ok (imageMessages system_prompt
            ("data:image/png;base64," ++ b64encode bytes) prompt) := by
  unfold image_text_completion resolveImageUrl
  by_cases hp : "data:image".isPrefixOf image_path
  · simp [hp]
  · cases hf : fs image_path <;> simp [hp, hf]

/-- C8: in interactive mode, a line that case-insensitively matches an
exit keyword terminates the loop without dispatching a request for it,
and every earlier line dispatches exactly one request with that line as
the prompt. -/
theorem claim_c8_interactive_loop (pre suf : List String) (e : String)
    (hpre : ∀ l ∈ pre, isExitInput l = false)
    (he : isExitInput e = true) :
    interactiveDispatches (pre ++ e :: suf) = pre := by
  induction pre with
  | nil => simp [interactiveDispatches, he]
  | cons l rest ih =>
    have hl : isExitInput l = false := hpre l (by simp)
    have hrest : ∀ x ∈ rest, isExitInput x = false := by
      intro x hx
      exact hpre x (by simp [hx])
    simp [interactiveDispatches, hl, ih hrest]

/-- Witness for C8 at the concrete input `["hi", "EXIT"]`: exactly one
request is dispatched, for "hi", and the upper-case exit keyword
terminates the loop without a request. -/
theorem claim_c8_witness :
    (∀ l ∈ ["hi"], isExitInput l = false) ∧ isExitInput "EXIT" = true ∧
      interactiveDispatches ["hi", "EXIT"] = ["hi"] :=
  ⟨by decide, by decide,
    claim_c8_interactive_loop ["hi"] [] "EXIT" (by decide) (by decide)⟩

/-- C9: every not-found, value or generic I/O error raised from within an
interaction mode — including a stream-aggregator failure propagating
mid-iteration — is caught at the CLI boundary, one human-readable message
is echoed, and the command returns normally with exit code 0. -/
theorem claim_c9_cli_catches_and_exits_zero (print_output : Bool)
    (chunks : List Chunk) (e : CliError) :
    cliRunStream print_output chunks (some e) =
      ⟨[cliErrorMessage e], 0⟩ :=
  rfl

/-- C10: the aggregated string computed by `process_stream` is identical
whether the printing side channel is enabled or not — the emit side
channel never influences the aggregation result. -/
theorem claim_c10_print_noninterference (chunks : List Chunk) :
    (process_stream true chunks).full_response =
      (process_stream false chunks).full_response := by
  unfold process_stream
  rw [foldl_full_response, foldl_full_response]

end Ag
